import Mathlib

/-!
Shallow embedding of the Secret-Santa bot core (participant serialization,
directory cache and lookups, draw engine, notification dispatcher) translated
from `src/bot/schemas.py`, `src/bot/services/participants_service.py`,
`src/bot/handlers/admin.py` and `src/bot/handlers/user.py`.

Machine conventions: Python `int` is unbounded, embedded as `Int`;
Python `Optional[T]` is `Option T`; Python code that can raise is embedded
as `Except PyErr _`.  External collaborators (the Google-Sheets row store and
the Telegram messaging gateway) are embedded as explicit parameters/oracles.
-/

/-- Errors raised by the embedded Python code: `ValueError` (e.g. `int()` on a
malformed string, or the bulk-upsert precondition), and a row-store
transport failure (`gspread` `APIError` and friends). -/
inductive PyErr where
  | valueError
  | apiError
deriving DecidableEq, Repr

/-- Decidable equality of embedded fallible results, so that concrete runs
can be checked by evaluation. -/
instance {ε α : Type} [DecidableEq ε] [DecidableEq α] :
    DecidableEq (Except ε α) := fun x y =>
  match x, y with
  | .ok a, .ok b =>
    if h : a = b then isTrue (by rw [h]) else isFalse (fun hc => h (Except.ok.inj hc))
  | .error e, .error f =>
    if h : e = f then isTrue (by rw [h]) else isFalse (fun hc => h (Except.error.inj hc))
  | .ok _, .error _ => isFalse (fun hc => Except.noConfusion hc)
  | .error _, .ok _ => isFalse (fun hc => Except.noConfusion hc)

/-- Python truthiness of an `Optional[int]`: `None` and `0` are falsy. -/
def pyTruthyInt : Option Int → Bool
  | none => false
  | some v => v != 0

/-- Python truthiness of an `Optional[str]`: `None` and `""` are falsy. -/
def pyTruthyStr : Option String → Bool
  | none => false
  | some s => s != ""

/-- Python truthiness of an optional row position (`row_index`). -/
def pyTruthyNat : Option Nat → Bool
  | none => false
  | some v => v != 0

/-- Python `s or None` for a string `s`: the empty string becomes `None`. -/
def pyStrOrNone (s : String) : Option String :=
  if s = "" then none else some s

/-- ASCII whitespace stripped by Python `int(...)` around a numeric literal. -/
def isPySpace (c : Char) : Bool :=
  c == ' ' || c == '\t' || c == '\n' || c == '\r' || c == '\x0b' || c == '\x0c'

/-- Strip leading and trailing whitespace, as Python `int(...)` does. -/
def stripPySpaces (cs : List Char) : List Char :=
  ((cs.dropWhile isPySpace).reverse.dropWhile isPySpace).reverse

/-- Decimal digit value accumulation for Python `int(...)`: digits, with a
single `_` allowed between two digits (PEP 515). -/
def pyDigitsAux : List Char → Nat → Option Nat
  | [], acc => some acc
  | c :: rest, acc =>
    if c.isDigit then pyDigitsAux rest (acc * 10 + (c.toNat - 48))
    else if c = '_' then
      match rest with
      | [] => none
      | c2 :: rest2 =>
        if c2.isDigit then pyDigitsAux rest2 (acc * 10 + (c2.toNat - 48)) else none
    else none

/-- Parse a non-empty digit group (the body of a Python integer literal). -/
def pyDigits : List Char → Option Nat
  | [] => none
  | c :: rest => if c.isDigit then pyDigitsAux rest (c.toNat - 48) else none

/-- Sign handling of Python `int(...)` after whitespace stripping. -/
def pyIntCore : List Char → Option Int
  | [] => none
  | c :: rest =>
    if c = '+' then (pyDigits rest).map Int.ofNat
    else if c = '-' then (pyDigits rest).map (fun n => -(n : Int))
    else (pyDigits (c :: rest)).map Int.ofNat

/-- Embedding of Python `int(s)` for a decimal string: strip whitespace, an
optional sign, then a digit group; `none` models the `ValueError` raise. -/
def pyInt (s : String) : Option Int :=
  pyIntCore (stripPySpaces s.toList)

/-- Decimal digit accumulation for `str(n)`, structurally recursive on a fuel
bound (`fuel > n` always holds at the call sites, so the fuel never runs
out). -/
def natToDigitsAux : Nat → Nat → List Char → List Char
  | 0, _, acc => acc
  | fuel + 1, n, acc =>
    if n < 10 then Nat.digitChar n :: acc
    else natToDigitsAux fuel (n / 10) (Nat.digitChar (n % 10) :: acc)

/-- Decimal digit characters of a natural number, most significant first
(the digits of Python `str(n)` for `n ≥ 0`). -/
def natToDigitList (n : Nat) : List Char :=
  natToDigitsAux (n + 1) n []

/-- Python `str(n)` for a natural number. -/
def pyStrNat (n : Nat) : String :=
  ⟨natToDigitList n⟩

/-- Python `str(i)` for an integer. -/
def pyStrInt (i : Int) : String :=
  if i < 0 then "-" ++ pyStrNat i.natAbs else pyStrNat i.toNat

/-- Python `int(s) if s else default` (the pattern used by `from_row` for
integer columns with a non-null default). -/
def pyIntOr (s : String) (d : Int) : Except PyErr Int :=
  if s = "" then .ok d
  else match pyInt s with
    | some v => .ok v
    | none => .error .valueError

/-- Python `int(s) if s else None` (the pattern used by `from_row` for
optional integer columns). -/
def pyIntOrNone (s : String) : Except PyErr (Option Int) :=
  if s = "" then .ok none
  else match pyInt s with
    | some v => .ok (some v)
    | none => .error .valueError

/-- Python `str(x) if x is not None else ""` (optional integer cells of
`to_row`). -/
def pyOptIntStr : Option Int → String
  | some v => pyStrInt v
  | none => ""

/-- Python `s.upper()` restricted to the ASCII range (the only comparisons
made are against the ASCII literal `"TRUE"`). -/
def pyUpper (s : String) : String :=
  ⟨s.toList.map Char.toUpper⟩

/-- Python `"TRUE" if v else "FALSE"` (the `_bool` helper of `to_row`). -/
def pyBoolStr (v : Bool) : String :=
  if v then "TRUE" else "FALSE"

/-- Python `row[i] if i < len(row) else ""` (the `_get` helper of `from_row`). -/
def pyListGet (row : List String) (i : Nat) : String :=
  row.getD i ""

/-!
Domain record `Participant` (`src/bot/schemas.py`).  The dataclass declares
exactly the fields below; `row_index` is NOT a declared field (the services
attach it dynamically), so it lives in the separate `StoredParticipant`
wrapper further down, mirroring how `dataclasses.replace` drops it.
-/

/-- The `Participant` dataclass of `src/bot/schemas.py` (declared fields only,
with the dataclass defaults). -/
structure Participant where
  tg_id : Int
  username : Option String
  full_name : String
  department : String
  phone : String
  active : Bool := true
  validated : Bool := false
  validator_tg_id : Option Int := none
  validation_ts : Option String := none
  recipient_tg_id : Option Int := none
  recipient_name : Option String := none
  recipient_info : Option String := none
  notified : Bool := false
  admin_comment : Option String := none
  updated_at : Option String := none
deriving DecidableEq, Repr, Inhabited

/-- `Participant.from_row`: deserialize one sheet row (order of
`PARTICIPANTS_COLUMNS`); missing trailing cells read as `""`; integer cells
are parsed only when non-empty (a malformed non-empty cell raises). -/
def Participant.from_row (row : List String) : Except PyErr Participant := do
  let g := fun i => pyListGet row i
  let tg_id ← pyIntOr (g 1) 0
  let validator_tg_id ← pyIntOrNone (g 8)
  let recipient_tg_id ← pyIntOrNone (g 10)
  return {
    tg_id := tg_id
    username := pyStrOrNone (g 2)
    full_name := g 3
    department := g 4
    phone := g 5
    active := pyUpper (g 6) == "TRUE"
    validated := pyUpper (g 7) == "TRUE"
    validator_tg_id := validator_tg_id
    validation_ts := pyStrOrNone (g 9)
    recipient_tg_id := recipient_tg_id
    recipient_name := pyStrOrNone (g 11)
    recipient_info := pyStrOrNone (g 12)
    notified := pyUpper (g 13) == "TRUE"
    admin_comment := pyStrOrNone (g 14)
    updated_at := pyStrOrNone (g 0)
  }

/-- `Participant.to_row`: one string per declared column, in declared order;
`x or ""` on an optional string is `getD ""`. -/
def Participant.to_row (p : Participant) : List String :=
  [ p.updated_at.getD "",
    pyStrInt p.tg_id,
    p.username.getD "",
    p.full_name,
    p.department,
    p.phone,
    pyBoolStr p.active,
    pyBoolStr p.validated,
    pyOptIntStr p.validator_tg_id,
    p.validation_ts.getD "",
    pyOptIntStr p.recipient_tg_id,
    p.recipient_name.getD "",
    p.recipient_info.getD "",
    pyBoolStr p.notified,
    p.admin_comment.getD "" ]

/-!
Phone normalization (`_normalize_russian_phone`, `src/bot/handlers/user.py`).
`re.sub(r"\D", "", text)` keeps exactly the digit characters (embedded for
the ASCII digit class `Char.isDigit`).
-/

/-- `_normalize_russian_phone`: keep the digits; require exactly 11 of them
with a leading `7` or `8`; map a leading `8` to `7`; return `"+7" + rest`. -/
def normalizeRussianPhone (text : String) : Option String :=
  let digits := text.toList.filter Char.isDigit
  if digits.length ≠ 11 ∨ (digits.head? ≠ some '7' ∧ digits.head? ≠ some '8') then
    none
  else
    let digits := if digits.head? = some '8' then '7' :: digits.tail else digits
    some ("+7" ++ String.mk digits.tail)

/-!
Draw engine (`_handle_draw`, `src/bot/handlers/admin.py`, lines 287-348).
`random.shuffle` is embedded as an explicit `shuffle` oracle; its contract
(it permutes the list) appears as a hypothesis of the theorems.  The loop
mutates only the `recipient_*`/`notified` fields of each eligible
participant and reads only the never-mutated identity fields of the
receiver, so a pure `mapIdx` over the shuffled list is an exact embedding.
-/

/-- One iteration of the assignment loop: `santa` is assigned `receiver`,
with the `recipient_info` snapshot formatted at draw time. -/
def assignFromReceiver (santa receiver : Participant) : Participant :=
  { santa with
    recipient_tg_id := some receiver.tg_id
    recipient_name := some receiver.full_name
    recipient_info := some ("Отдел: " ++ receiver.department ++ "\n" ++
                            "Телефон: " ++ receiver.phone)
    notified := false }

/-- The assignment loop: position `i` of the shuffled eligible list is
assigned position `(i+1) % n`. -/
def drawAssign (l : List Participant) : List Participant :=
  l.mapIdx fun i santa => assignFromReceiver santa (l.getD ((i + 1) % l.length) santa)

/-- Outcome of `_handle_draw`: too few eligible participants, the re-draw
conflict guard, or the list of participant rows written (one
`upsert_participant` per eligible participant, in shuffled order). -/
inductive DrawResult where
  | insufficient
  | conflict
  | assigned (writes : List Participant)
deriving DecidableEq, Repr

/-- The eligibility filter of `_handle_draw`. -/
def eligibleOf (participants : List Participant) : List Participant :=
  participants.filter fun p => p.active && p.validated

/-- `_handle_draw`: filter to eligible, guard `len < 2`, guard
`any(p.recipient_tg_id ...)` (Python truthiness), then shuffle and assign. -/
def performDraw (participants : List Participant)
    (shuffle : List Participant → List Participant) : DrawResult :=
  let eligible := eligibleOf participants
  if eligible.length < 2 then .insufficient
  else if eligible.any (fun p => pyTruthyInt p.recipient_tg_id) then .conflict
  else .assigned (drawAssign (shuffle eligible))

/-!
Notification dispatcher (`_notify_participants`, `src/bot/handlers/admin.py`,
lines 369-424).  The per-recipient `send_message` outcome is the `deliver`
oracle (`true` = the try-block succeeds; row-store writes inside the loop are
assumed to succeed).  `_handle_draw` calls it with
`only_notified_false=True, reminder=False`; `_handle_notify` with
`only_notified_false=False, reminder=True`.
-/

/-- The skip conditions of the notification loop, combined: a participant
reaches the send attempt iff this holds. -/
def isCandidate (only_notified_false : Bool) (p : Participant) : Bool :=
  p.active && p.validated &&
    pyTruthyInt p.recipient_tg_id && pyTruthyStr p.recipient_name &&
    !(only_notified_false && p.notified)

/-- Accumulated effects of the notification loop: the returned counters, the
participants to whom a send was attempted (in list order), and the rows
written back (`upsert_participant` calls). -/
structure NotifyState where
  sent : Nat
  failed : Nat
  messaged : List Participant
  writes : List Participant
deriving DecidableEq, Repr

def notifyInit : NotifyState := ⟨0, 0, [], []⟩

/-- One iteration of the notification loop over participant `p`. -/
def notifyStep (only_notified_false : Bool) (deliver : Participant → Bool)
    (st : NotifyState) (p : Participant) : NotifyState :=
  if !p.active || !p.validated then st
  else if !pyTruthyInt p.recipient_tg_id || !pyTruthyStr p.recipient_name then st
  else if only_notified_false && p.notified then st
  else if deliver p then
    { st with
      sent := st.sent + 1
      messaged := st.messaged ++ [p]
      writes := if !p.notified then st.writes ++ [{ p with notified := true }]
                else st.writes }
  else { st with failed := st.failed + 1, messaged := st.messaged ++ [p] }

/-- `_notify_participants` as a fold of the loop body over the participant
list. -/
def notifyParticipants (only_notified_false : Bool) (deliver : Participant → Bool)
    (ps : List Participant) : NotifyState :=
  ps.foldl (notifyStep only_notified_false deliver) notifyInit

/-- In-place effect of the loop on one participant object: `notified` is set
to `true` exactly when the participant reached the send, the send succeeded
and the flag was still `false`. -/
def notifyMutate (only_notified_false : Bool) (deliver : Participant → Bool)
    (p : Participant) : Participant :=
  if isCandidate only_notified_false p && deliver p && !p.notified then
    { p with notified := true }
  else p

/-- The participant list after the notification loop (each object is visited
once, so the in-place mutation is a `map`). -/
def notifyAfter (only_notified_false : Bool) (deliver : Participant → Bool)
    (ps : List Participant) : List Participant :=
  ps.map (notifyMutate only_notified_false deliver)

/-!
Participant directory (`src/bot/services/participants_service.py`).
The `gspread` worksheet is embedded as `SheetModel` (its `find` either
returns a cell row, returns no cell, or raises a transport error — the
API-error case of `PyErr`).  Time (`time.monotonic()`) is an explicit `now`
argument.  Header maintenance (`_ensure_header`) does not affect any result
modelled here and is omitted.
-/

/-- A participant together with the dynamically attached `row_index`
attribute.  `row_index` is not a declared dataclass field; `none` models the
attribute being absent (the code never assigns `None` to it). -/
structure StoredParticipant where
  p : Participant
  row_index : Option Nat
deriving DecidableEq, Repr

/-- `_clone_participant`: `dataclasses.replace(participant)` rebuilds the
object from the declared fields only, so the clone lacks `row_index`. -/
def cloneParticipant (sp : StoredParticipant) : StoredParticipant :=
  ⟨sp.p, none⟩

/-- `_ParticipantsCacheEntry`: the snapshot stored by
`_set_participants_cache` (clones of the listed participants). -/
structure CacheEntry where
  expires_at : Nat
  participants : List StoredParticipant
deriving DecidableEq, Repr

/-- The by-tg-id dictionary of the cache entry,
`{p.tg_id: p for p in clones if p.tg_id}`: the last clone with that truthy
`tg_id` wins. -/
def cacheDictLookup (l : List StoredParticipant) (tg : Int) : Option StoredParticipant :=
  (l.filter fun sp => sp.p.tg_id == tg && sp.p.tg_id != 0).getLast?

/-- `_set_participants_cache`: a non-positive TTL clears the cache, otherwise
the entry holds clones and expires at `now + ttl`. -/
def setParticipantsCache (ps : List StoredParticipant) (ttl now : Nat) :
    Option CacheEntry :=
  if ttl = 0 then none
  else some ⟨now + ttl, ps.map cloneParticipant⟩

/-- `_get_cached_participant`: a fresh cache entry serves a clone of the
stored clone; an expired or absent entry (or an unknown id) is a miss. -/
def getCachedParticipant (cache : Option CacheEntry) (now : Nat) (tg : Int) :
    Option StoredParticipant :=
  match cache with
  | none => none
  | some e =>
    if now > e.expires_at then none
    else match cacheDictLookup e.participants tg with
      | none => none
      | some sp => some (cloneParticipant sp)

/-- `_get_cached_list`: a fresh cache entry serves clones of all stored
clones. -/
def getCachedList (cache : Option CacheEntry) (now : Nat) :
    Option (List StoredParticipant) :=
  match cache with
  | none => none
  | some e =>
    if now > e.expires_at then none
    else some (e.participants.map cloneParticipant)

/-- The row store behind `self.sheet`: `find` searches column 2 for the id
(`.error` models a raised exception, `.ok none` a `None` cell), `row_values`
reads a row. -/
structure SheetModel where
  find : Int → Except PyErr (Option Nat)
  row_values : Nat → List String

/-- `_find_row_index_by_tg_id` (lines 108-125): `except Exception` catches
EVERY raised exception — transport failures included — and returns `None`,
exactly like the no-matching-cell outcome. -/
def findRowIndexByTgId (sheet : SheetModel) (tg : Int) : Option Nat :=
  match sheet.find tg with
  | .error _ => none
  | .ok c => c

/-- `get_by_tg_id` (lines 130-142): cache lookup when enabled and fresh, else
row search, deserialization, and `participant.row_index = row_idx`. -/
def getByTgId (sheet : SheetModel) (cache : Option CacheEntry)
    (now ttl : Nat) (use_cache : Bool) (tg : Int) :
    Except PyErr (Option StoredParticipant) :=
  match (if use_cache && ttl > 0 then getCachedParticipant cache now tg else none) with
  | some cached => .ok (some cached)
  | none =>
    match findRowIndexByTgId sheet tg with
    | none => .ok none
    | some idx =>
      (Participant.from_row (sheet.row_values idx)).map fun p => some ⟨p, some idx⟩

/-- Deserialization loop of `list_all`: rows after the header, 1-based row
numbers starting at 2, each result carrying its `row_index`. -/
def participantsFromRows : List (List String) → Nat → Except PyErr (List StoredParticipant)
  | [], _ => .ok []
  | r :: rest, idx => do
    let p ← Participant.from_row r
    let tl ← participantsFromRows rest (idx + 1)
    return ⟨p, some idx⟩ :: tl

/-- `list_all` (lines 209-231): cached list when enabled and fresh, else read
all rows, skip the header, deserialize, and refresh the cache.  Returns the
result list together with the cache state after the call. -/
def listAll (sheet_values : List (List String)) (cache : Option CacheEntry)
    (now ttl : Nat) (use_cache : Bool) :
    Except PyErr (List StoredParticipant × Option CacheEntry) :=
  match (if use_cache && ttl > 0 then getCachedList cache now else none) with
  | some cached => .ok (cached, cache)
  | none =>
    if sheet_values = [] then
      .ok ([], if ttl > 0 then setParticipantsCache [] ttl now else cache)
    else do
      let ps ← participantsFromRows (sheet_values.drop 1) 2
      return (ps, if ttl > 0 then setParticipantsCache ps ttl now else cache)

/-!
`bulk_upsert_participants` (lines 175-196).  Effects on the row store and the
cache are recorded as an event trace; `batchOk` is the outcome oracle of each
`sheet.batch_update` call (a `false` models the call raising an `APIError`).
-/

/-- Observable effects of a `bulk_upsert_participants` call. -/
inductive BulkEvent where
  | batchWrite (chunk : List (Nat × List String))
  | invalidateCache
deriving DecidableEq, Repr

/-- Chunk splitting, structurally recursive on a fuel bound (`fuel > l.length`
at the call site, so the fuel never runs out for `size ≥ 1`). -/
def chunkedAux : Nat → List (Nat × List String) → Nat →
    List (List (Nat × List String))
  | 0, _, _ => []
  | fuel + 1, l, size =>
    if l = [] ∨ size = 0 then []
    else l.take size :: chunkedAux fuel (l.drop size) size

/-- `_chunked` (lines 28-30): split into runs of `size` (the service
guarantees `size ≥ 1`). -/
def chunked (l : List (Nat × List String)) (size : Nat) :
    List (List (Nat × List String)) :=
  chunkedAux (l.length + 1) l size

/-- The `prepared` loop: raise `ValueError` on a missing/falsy `row_index`,
otherwise refresh `updated_at` and serialize into a `(range, values)` pair
(embedded as the 1-based row number and the row). -/
def bulkPrepare (now : String) : List StoredParticipant →
    Except PyErr (List (Nat × List String))
  | [] => .ok []
  | sp :: rest =>
    if pyTruthyNat sp.row_index = false then .error .valueError
    else do
      let tl ← bulkPrepare now rest
      return (sp.row_index.getD 0, ({ sp.p with updated_at := some now }).to_row) :: tl

/-- The chunk loop plus the final `_invalidate_cache()`: stop at the first
failing `batch_update`; the invalidation event is emitted only after every
chunk succeeded. -/
def bulkRunChunks (batchOk : List (Nat × List String) → Bool) :
    List (List (Nat × List String)) → List BulkEvent × Except PyErr Unit
  | [] => ([.invalidateCache], .ok ())
  | c :: rest =>
    if batchOk c then
      let (evs, r) := bulkRunChunks batchOk rest
      (.batchWrite c :: evs, r)
    else ([.batchWrite c], .error .apiError)

/-- `bulk_upsert_participants`: empty input returns at once; otherwise
prepare every row (raising before any write if some `row_index` is missing),
then write chunk by chunk and invalidate the cache after total success. -/
def bulkUpsertParticipants (chunkSize : Nat) (now : String)
    (batchOk : List (Nat × List String) → Bool)
    (ps : List StoredParticipant) : List BulkEvent × Except PyErr Unit :=
  if ps = [] then ([], .ok ())
  else match bulkPrepare now ps with
    | .error e => ([], .error e)
    | .ok prepared => bulkRunChunks batchOk (chunked prepared chunkSize)

/-!
Theorems.  First, correctness of the decimal conversions: Python
`int(str(i)) == i`, which drives the serialization round-trip.
-/

theorem digitChar_isDigit (d : Nat) (h : d < 10) : (Nat.digitChar d).isDigit = true := by
  interval_cases d <;> decide

theorem digitChar_toNat (d : Nat) (h : d < 10) : (Nat.digitChar d).toNat = 48 + d := by
  interval_cases d <;> decide

theorem natToDigitsAux_spec (n : Nat) : ∀ fuel acc, n < fuel →
    natToDigitsAux fuel n acc = natToDigitList n ++ acc := by
  induction n using Nat.strong_induction_on with
  | _ n ih =>
    intro fuel acc hfuel
    match fuel, hfuel with
    | f + 1, hfuel =>
      by_cases h10 : n < 10
      · have hl : natToDigitList n = [Nat.digitChar n] := by
          show natToDigitsAux (n + 1) n [] = _
          rw [natToDigitsAux, if_pos h10]
        rw [natToDigitsAux, if_pos h10, hl]
        rfl
      · have hdiv : n / 10 < n := Nat.div_lt_self (by omega) (by omega)
        have hl : natToDigitList n
            = natToDigitList (n / 10) ++ [Nat.digitChar (n % 10)] := by
          show natToDigitsAux (n + 1) n [] = _
          rw [natToDigitsAux, if_neg h10, ih (n / 10) hdiv n _ (by omega)]
        rw [natToDigitsAux, if_neg h10, ih (n / 10) hdiv f _ (by omega), hl,
          List.append_assoc]
        rfl

theorem natToDigitList_eq (n : Nat) :
    natToDigitList n = if n < 10 then [Nat.digitChar n]
      else natToDigitList (n / 10) ++ [Nat.digitChar (n % 10)] := by
  by_cases h10 : n < 10
  · rw [if_pos h10, natToDigitList, natToDigitsAux, if_pos h10]
  · rw [if_neg h10, natToDigitList, natToDigitsAux, if_neg h10,
      natToDigitsAux_spec (n / 10) n _ (Nat.div_lt_self (by omega) (by omega))]

theorem natToDigitList_ne_nil (n : Nat) : natToDigitList n ≠ [] := by
  rw [natToDigitList_eq]
  split
  · simp
  · simp

theorem natToDigitList_all_digits (n : Nat) :
    ∀ c ∈ natToDigitList n, c.isDigit = true := by
  induction n using Nat.strong_induction_on with
  | _ n ih =>
    rw [natToDigitList_eq]
    split
    · intro c hc
      rw [List.mem_singleton] at hc
      subst hc
      exact digitChar_isDigit _ (by omega)
    · intro c hc
      rw [List.mem_append] at hc
      rcases hc with hc | hc
      · exact ih (n / 10) (Nat.div_lt_self (by omega) (by omega)) c hc
      · rw [List.mem_singleton] at hc
        subst hc
        exact digitChar_isDigit _ (Nat.mod_lt _ (by omega))

theorem foldl_natToDigitList (n : Nat) : ∀ acc : Nat,
    (natToDigitList n).foldl (fun a c => a * 10 + (c.toNat - 48)) acc
      = acc * 10 ^ (natToDigitList n).length + n := by
  induction n using Nat.strong_induction_on with
  | _ n ih =>
    intro acc
    rw [natToDigitList_eq]
    split
    · rename_i h
      simp [digitChar_toNat n h]
    · rename_i h
      rw [List.foldl_append, List.length_append,
        ih (n / 10) (Nat.div_lt_self (by omega) (by omega)) acc]
      simp only [List.foldl_cons, List.foldl_nil, List.length_cons, List.length_nil]
      rw [digitChar_toNat (n % 10) (Nat.mod_lt _ (by omega))]
      generalize (natToDigitList (n / 10)).length = L
      rw [pow_succ]
      calc (acc * 10 ^ L + n / 10) * 10 + (48 + n % 10 - 48)
          = acc * (10 ^ L * 10) + (10 * (n / 10) + n % 10) := by
            rw [Nat.add_sub_cancel_left]; ring
        _ = acc * (10 ^ L * 10) + n := by rw [Nat.div_add_mod]

theorem pyDigitsAux_all_digits (l : List Char) :
    ∀ acc : Nat, (∀ c ∈ l, c.isDigit = true) →
      pyDigitsAux l acc = some (l.foldl (fun a c => a * 10 + (c.toNat - 48)) acc) := by
  induction l with
  | nil => intro acc _; rfl
  | cons c rest ih =>
    intro acc h
    rw [List.foldl_cons, pyDigitsAux.eq_def]
    simp only [h c (by simp), if_true]
    exact ih _ (fun x hx => h x (by simp [hx]))

theorem pyDigits_natToDigitList (n : Nat) :
    pyDigits (natToDigitList n) = some n := by
  obtain ⟨c, rest, hcr⟩ := List.exists_cons_of_ne_nil (natToDigitList_ne_nil n)
  have hall := natToDigitList_all_digits n
  rw [hcr] at hall ⊢
  rw [pyDigits, if_pos (hall c (by simp)),
    pyDigitsAux_all_digits rest _ (fun x hx => hall x (by simp [hx]))]
  have := foldl_natToDigitList n 0
  rw [hcr] at this
  simpa using this

theorem isPySpace_false_of_isDigit (c : Char) (h : c.isDigit = true) :
    isPySpace c = false := by
  simp only [isPySpace, Bool.or_eq_false_iff, beq_eq_false_iff_ne, ne_eq]
  refine ⟨⟨⟨⟨⟨?_, ?_⟩, ?_⟩, ?_⟩, ?_⟩, ?_⟩ <;> (rintro rfl; revert h; decide)

theorem dropWhile_isPySpace_of_digits (m : List Char)
    (hm : ∀ c ∈ m, isPySpace c = false) : m.dropWhile isPySpace = m := by
  cases m with
  | nil => rfl
  | cons a t => rw [List.dropWhile_cons, hm a (by simp)]; simp

theorem stripPySpaces_of_no_space (l : List Char)
    (h : ∀ c ∈ l, isPySpace c = false) : stripPySpaces l = l := by
  rw [stripPySpaces, dropWhile_isPySpace_of_digits l h,
    dropWhile_isPySpace_of_digits l.reverse (fun c hc => h c (List.mem_reverse.mp hc)),
    List.reverse_reverse]

theorem pyDigits_eq_some_of_digits (l : List Char) (hne : l ≠ [])
    (h : ∀ c ∈ l, c.isDigit = true) :
    pyDigits l = some (l.foldl (fun a c => a * 10 + (c.toNat - 48)) 0) := by
  cases l with
  | nil => exact absurd rfl hne
  | cons c rest =>
    have hc := h c (by simp)
    rw [pyDigits, if_pos hc, List.foldl_cons,
      pyDigitsAux_all_digits rest _ (fun x hx => h x (by simp [hx]))]
    norm_num

theorem pyStrNat_toList (n : Nat) : (pyStrNat n).toList = natToDigitList n := rfl

theorem pyStrNat_ne_empty (n : Nat) : pyStrNat n ≠ "" := by
  intro h
  have : (pyStrNat n).toList = ("" : String).toList := by rw [h]
  rw [pyStrNat_toList] at this
  exact natToDigitList_ne_nil n this

theorem pyInt_pyStrNat (n : Nat) : pyInt (pyStrNat n) = some (n : Int) := by
  obtain ⟨c, rest, hcr⟩ := List.exists_cons_of_ne_nil (natToDigitList_ne_nil n)
  have hall := natToDigitList_all_digits n
  have hc : c.isDigit = true := hall c (by rw [hcr]; simp)
  have hplus : ¬(c = '+') := by
    rintro rfl; revert hc; decide
  have hminus : ¬(c = '-') := by
    rintro rfl; revert hc; decide
  have hstrip : stripPySpaces (natToDigitList n) = natToDigitList n :=
    stripPySpaces_of_no_space _ (fun x hx => isPySpace_false_of_isDigit x (hall x hx))
  rw [pyInt, pyStrNat_toList, hstrip, hcr, pyIntCore.eq_def]
  simp only [hplus, if_false, hminus]
  rw [← hcr, pyDigits_natToDigitList n]
  rfl

theorem pyInt_pyStrInt (i : Int) : pyInt (pyStrInt i) = some i := by
  rw [pyStrInt]
  by_cases hneg : i < 0
  · rw [if_pos hneg]
    have habs := natToDigitList_all_digits i.natAbs
    have htl : (("-" : String) ++ pyStrNat i.natAbs).toList
        = '-' :: natToDigitList i.natAbs := by
      show (("-" : String) ++ pyStrNat i.natAbs).data = '-' :: natToDigitList i.natAbs
      rw [String.data_append]
      rfl
    have hnospace : ∀ c ∈ '-' :: natToDigitList i.natAbs, isPySpace c = false := by
      intro c hc
      rcases List.mem_cons.mp hc with rfl | hc
      · decide
      · exact isPySpace_false_of_isDigit c (habs c hc)
    rw [pyInt, htl, stripPySpaces_of_no_space _ hnospace, pyIntCore.eq_def]
    simp only [reduceCtorEq, reduceIte, pyDigits_natToDigitList]
    show some (-(i.natAbs : Int)) = some i
    rw [Option.some_inj]
    omega
  · rw [if_neg hneg, pyInt_pyStrNat]
    congr 1
    omega

theorem pyStrInt_ne_empty (i : Int) : pyStrInt i ≠ "" := by
  rw [pyStrInt]
  by_cases hneg : i < 0
  · rw [if_pos hneg]
    intro h
    have : (("-" : String) ++ pyStrNat i.natAbs).data
        = ("" : String).data := by rw [h]
    rw [String.data_append] at this
    simp at this
  · rw [if_neg hneg]
    exact pyStrNat_ne_empty _

theorem pyIntOr_pyStrInt (i d : Int) : pyIntOr (pyStrInt i) d = .ok i := by
  rw [pyIntOr, if_neg (pyStrInt_ne_empty i), pyInt_pyStrInt]

theorem pyIntOrNone_emit (x : Option Int) :
    pyIntOrNone (pyOptIntStr x) = .ok x := by
  cases x with
  | none => rfl
  | some v => rw [pyOptIntStr, pyIntOrNone, if_neg (pyStrInt_ne_empty v), pyInt_pyStrInt]

theorem pyStrOrNone_getD (x : Option String) (h : x ≠ some "") :
    pyStrOrNone (x.getD "") = x := by
  cases x with
  | none => rfl
  | some s =>
    rw [Option.getD_some, pyStrOrNone, if_neg]
    intro hs
    exact h (by rw [hs])

theorem pyUpper_pyBoolStr (b : Bool) : (pyUpper (pyBoolStr b) == "TRUE") = b := by
  cases b <;> decide

/-!
Claim C9 — phone normalization.
-/

/-- Claim C9: the three sample inputs all normalize to `+79991234567`, and
every input with fewer than 11 digits, or whose leading digit is neither `7`
nor `8`, is rejected. -/
theorem C9_phone_normalization :
    (normalizeRussianPhone "89991234567" = some "+79991234567"
      ∧ normalizeRussianPhone "+79991234567" = some "+79991234567"
      ∧ normalizeRussianPhone "8 (999) 123-45-67" = some "+79991234567")
    ∧ ∀ s : String,
        ((s.toList.filter Char.isDigit).length < 11
          ∨ ((s.toList.filter Char.isDigit).head? ≠ some '7'
              ∧ (s.toList.filter Char.isDigit).head? ≠ some '8')) →
        normalizeRussianPhone s = none := by
  refine ⟨⟨by decide, by decide, by decide⟩, ?_⟩
  intro s h
  have hcond : (s.toList.filter Char.isDigit).length ≠ 11
      ∨ ((s.toList.filter Char.isDigit).head? ≠ some '7'
          ∧ (s.toList.filter Char.isDigit).head? ≠ some '8') := by
    rcases h with h | h
    · exact Or.inl (by omega)
    · exact Or.inr h
  simp only [normalizeRussianPhone]
  rw [if_pos hcond]

/-- Claim C9, concrete instance of the rejection half: a 5-digit input is
rejected. -/
theorem C9_phone_normalization_witness : normalizeRussianPhone "12345" = none :=
  C9_phone_normalization.2 "12345" (Or.inl (by decide))

/-!
Claim C4 — `from_row` tolerance.  The claim fails on the code: a non-empty
integer cell that is not a valid integer literal makes Python `int(...)`
raise `ValueError` inside `from_row` (e.g. a `tg_id` cell `"abc"`).
-/

/-- Claim C4 (counterexample): on the row `["", "abc"]` — a malformed
non-empty `tg_id` cell — `from_row` raises instead of returning a
`Participant`. -/
theorem C4_from_row_counterexample :
    Participant.from_row ["", "abc"] = Except.error PyErr.valueError := by
  decide

theorem pyIntOr_ok_of (s : String) (d : Int)
    (h : s = "" ∨ (pyInt s).isSome) :
    ∃ v, pyIntOr s d = .ok v ∧ (s = "" → v = d) := by
  by_cases hs : s = ""
  · subst hs
    exact ⟨d, rfl, fun _ => rfl⟩
  · rcases h with rfl | h
    · exact absurd rfl hs
    · obtain ⟨v, hv⟩ := Option.isSome_iff_exists.mp h
      exact ⟨v, by rw [pyIntOr, if_neg hs, hv], fun hc => absurd hc hs⟩

theorem pyIntOrNone_ok_of (s : String)
    (h : s = "" ∨ (pyInt s).isSome) :
    ∃ v, pyIntOrNone s = .ok v ∧ (s = "" → v = none) := by
  by_cases hs : s = ""
  · subst hs
    exact ⟨none, rfl, fun _ => rfl⟩
  · rcases h with rfl | h
    · exact absurd rfl hs
    · obtain ⟨v, hv⟩ := Option.isSome_iff_exists.mp h
      exact ⟨some v, by rw [pyIntOrNone, if_neg hs, hv], fun hc => absurd hc hs⟩

theorem pyListGet_append_replicate (row : List String) (k i : Nat) :
    pyListGet (row ++ List.replicate k "") i = pyListGet row i := by
  rw [pyListGet, pyListGet]
  rcases Nat.lt_or_ge i row.length with h | h
  · rw [List.getD_eq_getElem _ _ (by simp only [List.length_append]; omega),
      List.getD_eq_getElem _ _ h, List.getElem_append_left h]
  · rw [List.getD_eq_default _ _ h]
    rcases Nat.lt_or_ge i (row.length + k) with h2 | h2
    · rw [List.getD_eq_getElem _ _ (by simp only [List.length_append, List.length_replicate]; omega)]
      rw [List.getElem_append_right h]
      simp
    · rw [List.getD_eq_default _ _ (by simp only [List.length_append, List.length_replicate]; omega)]

theorem from_row_append_replicate (row : List String) (k : Nat) :
    Participant.from_row (row ++ List.replicate k "") = Participant.from_row row := by
  simp only [Participant.from_row, pyListGet_append_replicate]

/-- Claim C4 (amended): `from_row` returns a `Participant` without raising on
every row — short rows included, missing trailing cells behaving as empty —
PROVIDED each integer cell (columns 1, 8, 10) is empty or a valid integer
literal; booleans parse as case-insensitive equality to `"TRUE"` (hence
default to `false` when absent or malformed) and empty integer cells yield
`0` for `tg_id` and null for the optional ids.  A malformed non-empty
integer cell instead raises `ValueError`. -/
theorem C4_from_row_tolerant (row : List String)
    (h1 : pyListGet row 1 = "" ∨ (pyInt (pyListGet row 1)).isSome)
    (h8 : pyListGet row 8 = "" ∨ (pyInt (pyListGet row 8)).isSome)
    (h10 : pyListGet row 10 = "" ∨ (pyInt (pyListGet row 10)).isSome) :
    ∃ p : Participant, Participant.from_row row = .ok p
      ∧ (∀ k, Participant.from_row (row ++ List.replicate k "") = .ok p)
      ∧ p.active = (pyUpper (pyListGet row 6) == "TRUE")
      ∧ p.validated = (pyUpper (pyListGet row 7) == "TRUE")
      ∧ p.notified = (pyUpper (pyListGet row 13) == "TRUE")
      ∧ (pyListGet row 1 = "" → p.tg_id = 0)
      ∧ (pyListGet row 8 = "" → p.validator_tg_id = none)
      ∧ (pyListGet row 10 = "" → p.recipient_tg_id = none) := by
  obtain ⟨tg, htg, htg0⟩ := pyIntOr_ok_of (pyListGet row 1) 0 h1
  obtain ⟨vv, hvv, hvv0⟩ := pyIntOrNone_ok_of (pyListGet row 8) h8
  obtain ⟨rv, hrv, hrv0⟩ := pyIntOrNone_ok_of (pyListGet row 10) h10
  have hok : Participant.from_row row = .ok {
      tg_id := tg
      username := pyStrOrNone (pyListGet row 2)
      full_name := pyListGet row 3
      department := pyListGet row 4
      phone := pyListGet row 5
      active := pyUpper (pyListGet row 6) == "TRUE"
      validated := pyUpper (pyListGet row 7) == "TRUE"
      validator_tg_id := vv
      validation_ts := pyStrOrNone (pyListGet row 9)
      recipient_tg_id := rv
      recipient_name := pyStrOrNone (pyListGet row 11)
      recipient_info := pyStrOrNone (pyListGet row 12)
      notified := pyUpper (pyListGet row 13) == "TRUE"
      admin_comment := pyStrOrNone (pyListGet row 14)
      updated_at := pyStrOrNone (pyListGet row 0) } := by
    rw [Participant.from_row, htg, hvv, hrv]
    rfl
  refine ⟨_, hok, ?_, rfl, rfl, rfl, fun he => by simp [htg0 he],
    fun he => by simp [hvv0 he], fun he => by simp [hrv0 he]⟩
  intro k
  rw [from_row_append_replicate, hok]

/-- Claim C4 (amended), instance: a short two-cell row with a numeric `tg_id`
deserializes without raising. -/
theorem C4_from_row_tolerant_witness :
    ∃ p : Participant, Participant.from_row ["2024", "55"] = .ok p
      ∧ (∀ k, Participant.from_row (["2024", "55"] ++ List.replicate k "") = .ok p)
      ∧ p.active = (pyUpper (pyListGet ["2024", "55"] 6) == "TRUE")
      ∧ p.validated = (pyUpper (pyListGet ["2024", "55"] 7) == "TRUE")
      ∧ p.notified = (pyUpper (pyListGet ["2024", "55"] 13) == "TRUE")
      ∧ (pyListGet ["2024", "55"] 1 = "" → p.tg_id = 0)
      ∧ (pyListGet ["2024", "55"] 8 = "" → p.validator_tg_id = none)
      ∧ (pyListGet ["2024", "55"] 10 = "" → p.recipient_tg_id = none) :=
  C4_from_row_tolerant ["2024", "55"] (Or.inr (by decide)) (Or.inl (by decide))
    (Or.inl (by decide))

/-!
Claim C5 — serialization round-trip.  The claim fails on the code: an
optional string field holding the EMPTY string serializes to `""` (`x or ""`)
and deserializes back to `None` (`_get(i) or None`), so `from_row(to_row(p))`
loses the distinction between `None` and `""` on those fields.
-/

/-- Claim C5 (counterexample): for the participant whose `username` is the
empty string (not `None`), the pure serialize/deserialize cycle does not
reproduce `p` — the field comes back as `None`. -/
theorem C5_roundtrip_counterexample :
    Participant.from_row (Participant.to_row
        { tg_id := 1, username := some "", full_name := "a", department := "b",
          phone := "c" : Participant })
      ≠ Except.ok ({ tg_id := 1, username := some "", full_name := "a",
                     department := "b", phone := "c" } : Participant) := by
  decide

/-- Claim C5 (amended): for every `Participant` none of whose optional string
fields holds `some ""`, `from_row (to_row p)` reproduces `p` in all fields
(serialization itself does not touch `updated_at`). -/
theorem C5_roundtrip (p : Participant)
    (hu : p.username ≠ some "") (hv : p.validation_ts ≠ some "")
    (hrn : p.recipient_name ≠ some "") (hri : p.recipient_info ≠ some "")
    (ha : p.admin_comment ≠ some "") (hup : p.updated_at ≠ some "") :
    Participant.from_row p.to_row = .ok p := by
  obtain ⟨tg, un, fn, dep, ph, act, val, vtg, vts, rtg, rn, ri, nt, ac, ua⟩ := p
  have h1 : Participant.from_row (Participant.to_row
      ⟨tg, un, fn, dep, ph, act, val, vtg, vts, rtg, rn, ri, nt, ac, ua⟩)
      = Except.bind (pyIntOr (pyStrInt tg) 0) (fun tg_id =>
        Except.bind (pyIntOrNone (pyOptIntStr vtg)) (fun validator_tg_id =>
        Except.bind (pyIntOrNone (pyOptIntStr rtg)) (fun recipient_tg_id =>
        Except.ok ⟨tg_id, pyStrOrNone (un.getD ""), fn, dep, ph,
          pyUpper (pyBoolStr act) == "TRUE", pyUpper (pyBoolStr val) == "TRUE",
          validator_tg_id, pyStrOrNone (vts.getD ""), recipient_tg_id,
          pyStrOrNone (rn.getD ""), pyStrOrNone (ri.getD ""),
          pyUpper (pyBoolStr nt) == "TRUE", pyStrOrNone (ac.getD ""),
          pyStrOrNone (ua.getD "")⟩))) := rfl
  rw [h1, pyIntOr_pyStrInt, pyIntOrNone_emit, pyIntOrNone_emit]
  show Except.ok _ = _
  simp [pyUpper_pyBoolStr, pyStrOrNone_getD un hu, pyStrOrNone_getD vts hv,
    pyStrOrNone_getD rn hrn, pyStrOrNone_getD ri hri, pyStrOrNone_getD ac ha,
    pyStrOrNone_getD ua hup]

/-- Claim C5 (amended), instance: a fully populated participant with non-empty
optional fields survives the round trip. -/
theorem C5_roundtrip_witness :
    Participant.from_row (Participant.to_row
        { tg_id := 42, username := some "u", full_name := "Иванов",
          department := "IT", phone := "+79991234567", active := true,
          validated := true, validator_tg_id := some 7,
          validation_ts := some "2024-12-01T00:00:00Z",
          recipient_tg_id := some 43, recipient_name := some "Пётр",
          recipient_info := some "x", notified := true,
          admin_comment := some "ok",
          updated_at := some "2024-12-02T00:00:00Z" : Participant })
      = .ok { tg_id := 42, username := some "u", full_name := "Иванов",
              department := "IT", phone := "+79991234567", active := true,
              validated := true, validator_tg_id := some 7,
              validation_ts := some "2024-12-01T00:00:00Z",
              recipient_tg_id := some 43, recipient_name := some "Пётр",
              recipient_info := some "x", notified := true,
              admin_comment := some "ok",
              updated_at := some "2024-12-02T00:00:00Z" } :=
  C5_roundtrip _ (by decide) (by decide) (by decide) (by decide) (by decide)
    (by decide)

/-!
Draw engine lemmas.
-/

theorem assignFromReceiver_tg_id (s r : Participant) :
    (assignFromReceiver s r).tg_id = s.tg_id := rfl

theorem assignFromReceiver_active (s r : Participant) :
    (assignFromReceiver s r).active = s.active := rfl

theorem assignFromReceiver_validated (s r : Participant) :
    (assignFromReceiver s r).validated = s.validated := rfl

theorem assignFromReceiver_recipient (s r : Participant) :
    (assignFromReceiver s r).recipient_tg_id = some r.tg_id := rfl

theorem drawAssign_length (l : List Participant) :
    (drawAssign l).length = l.length := by
  unfold drawAssign
  simp

theorem drawAssign_get (l : List Participant) (i : Nat) (hi : i < l.length)
    (hi2 : i < (drawAssign l).length) :
    (drawAssign l).get ⟨i, hi2⟩
      = assignFromReceiver (l.get ⟨i, hi⟩)
          (l.get ⟨(i + 1) % l.length, Nat.mod_lt _ (by omega)⟩) := by
  unfold drawAssign
  rw [List.get_mapIdx l _ i hi]
  congr 1
  exact List.getD_eq_getElem l _ (Nat.mod_lt _ (by omega))

theorem drawAssign_getElem (l : List Participant) (i : Nat) (hi : i < l.length)
    (hi2 : i < (drawAssign l).length) :
    (drawAssign l)[i]
      = assignFromReceiver (l.get ⟨i, hi⟩)
          (l.get ⟨(i + 1) % l.length, Nat.mod_lt _ (by omega)⟩) :=
  drawAssign_get l i hi hi2

theorem drawAssign_map_tg (l : List Participant) :
    (drawAssign l).map Participant.tg_id = l.map Participant.tg_id := by
  apply List.ext_getElem
  · rw [List.length_map, List.length_map, drawAssign_length]
  · intro i h1 h2
    have hi : i < l.length := by
      rw [List.length_map] at h2; exact h2
    have hi2 : i < (drawAssign l).length := by rw [drawAssign_length]; exact hi
    rw [List.getElem_map, List.getElem_map, drawAssign_getElem l i hi hi2,
      assignFromReceiver_tg_id]
    rfl

theorem drawAssign_map_recipient (l : List Participant) :
    (drawAssign l).map (fun q => q.recipient_tg_id)
      = (l.map (fun q => some q.tg_id)).rotate 1 := by
  apply List.ext_getElem?
  intro i
  by_cases hi : i < l.length
  · have hi2 : i < (drawAssign l).length := by rw [drawAssign_length]; exact hi
    have himap : i < (List.map (fun q : Participant => some q.tg_id) l).length := by
      rw [List.length_map]; exact hi
    rw [List.getElem?_map, List.getElem?_rotate himap, List.length_map,
      List.getElem?_map, List.getElem?_eq_getElem hi2,
      List.getElem?_eq_getElem (Nat.mod_lt (i + 1) (by omega))]
    simp only [Option.map_some']
    rw [drawAssign_getElem l i hi hi2, assignFromReceiver_recipient]
    rfl
  · have hlen1 : (List.map (fun q : Participant => q.recipient_tg_id)
        (drawAssign l)).length ≤ i := by
      rw [List.length_map, drawAssign_length]; omega
    have hlen2 : ((List.map (fun q : Participant => some q.tg_id) l).rotate 1).length
        ≤ i := by
      rw [List.length_rotate, List.length_map]; omega
    rw [List.getElem?_eq_none hlen1, List.getElem?_eq_none hlen2]

theorem drawAssign_mem (l : List Participant) (q : Participant)
    (hq : q ∈ drawAssign l) :
    ∃ i, ∃ hi : i < l.length,
      q = assignFromReceiver (l.get ⟨i, hi⟩)
            (l.get ⟨(i + 1) % l.length, Nat.mod_lt _ (by omega)⟩) := by
  obtain ⟨⟨i, hi2⟩, hget⟩ := List.mem_iff_get.mp hq
  have hi : i < l.length := by rw [drawAssign_length] at hi2; exact hi2
  exact ⟨i, hi, by rw [← hget, drawAssign_get l i hi hi2]⟩

theorem rotate_index_ne (n i : Nat) (h2 : 2 ≤ n) (hi : i < n) :
    (i + 1) % n ≠ i := by
  by_cases hc : i + 1 = n
  · rw [hc, Nat.mod_self]
    omega
  · rw [Nat.mod_eq_of_lt (by omega)]
    omega

theorem performDraw_assigned_of (ps : List Participant)
    (shuffle : List Participant → List Participant)
    (h2 : 2 ≤ (eligibleOf ps).length)
    (hnone : ∀ p ∈ eligibleOf ps, pyTruthyInt p.recipient_tg_id = false) :
    performDraw ps shuffle = .assigned (drawAssign (shuffle (eligibleOf ps))) := by
  show (if (eligibleOf ps).length < 2 then DrawResult.insufficient
    else if (eligibleOf ps).any (fun p => pyTruthyInt p.recipient_tg_id) then
      DrawResult.conflict
    else DrawResult.assigned (drawAssign (shuffle (eligibleOf ps)))) = _
  rw [if_neg (by omega), if_neg]
  simp only [List.any_eq_true, not_exists]
  intro p
  rw [not_and]
  intro hp
  rw [hnone p hp]
  simp

theorem performDraw_conflict_of (ps : List Participant)
    (shuffle : List Participant → List Participant)
    (h2 : 2 ≤ (eligibleOf ps).length)
    (hex : ∃ p ∈ eligibleOf ps, pyTruthyInt p.recipient_tg_id = true) :
    performDraw ps shuffle = .conflict := by
  show (if (eligibleOf ps).length < 2 then DrawResult.insufficient
    else if (eligibleOf ps).any (fun p => pyTruthyInt p.recipient_tg_id) then
      DrawResult.conflict
    else DrawResult.assigned (drawAssign (shuffle (eligibleOf ps)))) = _
  rw [if_neg (by omega), if_pos (List.any_eq_true.mpr hex)]

/-!
Claim C1 — the draw is a cyclic derangement of the eligible set.
`random.shuffle` is the `shuffle` oracle; the hypothesis that its output is a
permutation of its input is the library's contract.  Distinctness of the
eligible `tg_id`s is the data-model invariant (`tg_id` is the unique key).
-/

/-- Claim C1: when the eligible set has size at least 2, carries no prior
assignment, and has pairwise distinct ids, `_handle_draw` writes exactly the
shuffled eligible participants, giving position `i` the participant at
position `(i+1) mod n`: every eligible participant occurs exactly once as
giver and exactly once as receiver, nobody is assigned to themselves, and
every written row is an (active, validated) eligible participant — so
non-eligible participants receive no assignment. -/
theorem C1_draw_cycle (ps : List Participant)
    (shuffle : List Participant → List Participant)
    (hperm : (shuffle (eligibleOf ps)).Perm (eligibleOf ps))
    (h2 : 2 ≤ (eligibleOf ps).length)
    (hnone : ∀ p ∈ eligibleOf ps, p.recipient_tg_id = none)
    (hnodup : ((eligibleOf ps).map Participant.tg_id).Nodup) :
    performDraw ps shuffle = .assigned (drawAssign (shuffle (eligibleOf ps)))
    ∧ (∀ i, ∀ hi : i < (shuffle (eligibleOf ps)).length,
        ∀ hi2 : i < (drawAssign (shuffle (eligibleOf ps))).length,
        (drawAssign (shuffle (eligibleOf ps))).get ⟨i, hi2⟩
          = assignFromReceiver ((shuffle (eligibleOf ps)).get ⟨i, hi⟩)
              ((shuffle (eligibleOf ps)).get
                ⟨(i + 1) % (shuffle (eligibleOf ps)).length, Nat.mod_lt _ (by omega)⟩))
    ∧ ((drawAssign (shuffle (eligibleOf ps))).map Participant.tg_id).Perm
        ((eligibleOf ps).map Participant.tg_id)
    ∧ ((drawAssign (shuffle (eligibleOf ps))).map (fun q => q.recipient_tg_id)).Perm
        ((eligibleOf ps).map (fun q => some q.tg_id))
    ∧ (∀ q ∈ drawAssign (shuffle (eligibleOf ps)), q.recipient_tg_id ≠ some q.tg_id)
    ∧ (∀ q ∈ drawAssign (shuffle (eligibleOf ps)),
        q.active = true ∧ q.validated = true) := by
  have hlen : (shuffle (eligibleOf ps)).length = (eligibleOf ps).length :=
    hperm.length_eq
  refine ⟨?_, ?_, ?_, ?_, ?_, ?_⟩
  · exact performDraw_assigned_of ps shuffle h2
      (fun p hp => by rw [hnone p hp]; rfl)
  · intro i hi hi2
    exact drawAssign_get _ i hi hi2
  · rw [drawAssign_map_tg]
    exact hperm.map Participant.tg_id
  · rw [drawAssign_map_recipient]
    exact ((List.map (fun q : Participant => some q.tg_id)
      (shuffle (eligibleOf ps))).rotate_perm 1).trans
      (hperm.map (fun q => some q.tg_id))
  · intro q hq
    obtain ⟨i, hi, hqe⟩ := drawAssign_mem _ q hq
    have hnodup2 : ((shuffle (eligibleOf ps)).map Participant.tg_id).Nodup :=
      ((hperm.map Participant.tg_id).nodup_iff).mpr hnodup
    rw [hqe, assignFromReceiver_recipient, assignFromReceiver_tg_id]
    intro hc
    rw [Option.some_inj] at hc
    have hmodlt : (i + 1) % (shuffle (eligibleOf ps)).length
        < (shuffle (eligibleOf ps)).length := Nat.mod_lt _ (by omega)
    have h1 : ((shuffle (eligibleOf ps)).map Participant.tg_id).get
          ⟨(i + 1) % (shuffle (eligibleOf ps)).length, by rw [List.length_map]; exact hmodlt⟩
        = ((shuffle (eligibleOf ps)).map Participant.tg_id).get
          ⟨i, by rw [List.length_map]; exact hi⟩ := by
      rw [List.get_eq_getElem, List.get_eq_getElem, List.getElem_map,
        List.getElem_map]
      exact hc
    rw [List.get_eq_getElem, List.get_eq_getElem] at h1
    have := (hnodup2.getElem_inj_iff).mp h1
    exact rotate_index_ne (shuffle (eligibleOf ps)).length i (by omega) hi this
  · intro q hq
    obtain ⟨i, hi, hqe⟩ := drawAssign_mem _ q hq
    have hmem : (shuffle (eligibleOf ps)).get ⟨i, hi⟩ ∈ eligibleOf ps :=
      hperm.mem_iff.mp (List.get_mem _ _ hi)
    have hflt := List.of_mem_filter hmem
    rw [Bool.and_eq_true] at hflt
    rw [hqe, assignFromReceiver_active, assignFromReceiver_validated]
    exact hflt

/-- Claim C1, instance: a two-participant draw with the identity shuffle
takes the assigned branch. -/
theorem C1_draw_cycle_witness :
    performDraw
        [⟨1, none, "A", "DA", "PA", true, true, none, none, none, none, none,
          false, none, none⟩,
         ⟨2, none, "B", "DB", "PB", true, true, none, none, none, none, none,
          false, none, none⟩] id
      = DrawResult.assigned (drawAssign (id (eligibleOf
          [⟨1, none, "A", "DA", "PA", true, true, none, none, none, none, none,
            false, none, none⟩,
           ⟨2, none, "B", "DB", "PB", true, true, none, none, none, none, none,
            false, none, none⟩]))) :=
  (C1_draw_cycle _ id (List.Perm.refl _) (by decide) (by decide) (by decide)).1

/-!
Claim C6 — the re-draw conflict guard.  The claim fails on the code: the
guard is `any(p.recipient_tg_id for p in eligible)`, a Python TRUTHINESS
test, so an eligible participant whose stored recipient id parsed to `0`
(a non-null assignment) does not trigger the guard and the draw proceeds
and overwrites.
-/

/-- Claim C6 (counterexample): with two eligible participants of which the
first carries the non-null recipient assignment `some 0`, the draw does NOT
return `conflict` — it takes the assigned branch and issues writes. -/
theorem C6_conflict_counterexample :
    ((⟨1, none, "A", "D", "P", true, true, none, none, some 0, some "X",
        some "I", false, none, none⟩ : Participant)
      ∈ eligibleOf
        [⟨1, none, "A", "D", "P", true, true, none, none, some 0, some "X",
          some "I", false, none, none⟩,
         ⟨2, none, "B", "D", "P", true, true, none, none, none, none, none,
          false, none, none⟩]
    ∧ (⟨1, none, "A", "D", "P", true, true, none, none, some 0, some "X",
        some "I", false, none, none⟩ : Participant).recipient_tg_id ≠ none)
    ∧ performDraw
        [⟨1, none, "A", "D", "P", true, true, none, none, some 0, some "X",
          some "I", false, none, none⟩,
         ⟨2, none, "B", "D", "P", true, true, none, none, none, none, none,
          false, none, none⟩] id ≠ DrawResult.conflict := by
  decide

/-- Claim C6 (amended): (1) if the eligible set has size at least 2 and some
eligible participant carries a non-null, NONZERO recipient id, the draw
returns `conflict`, and the conflict outcome carries no writes; (2) after a
completed draw over eligible participants with nonzero ids, any subsequent
draw whose eligible set contains one of the written rows returns `conflict`,
leaving the assignments untouched. -/
theorem C6_conflict_guard :
    (∀ (ps : List Participant) (shuffle : List Participant → List Participant),
      2 ≤ (eligibleOf ps).length →
      (∃ p ∈ eligibleOf ps, ∃ t : Int, p.recipient_tg_id = some t ∧ t ≠ 0) →
      performDraw ps shuffle = .conflict
        ∧ ∀ ws, performDraw ps shuffle ≠ .assigned ws)
    ∧ (∀ (ps ps₂ : List Participant)
        (shuffle shuffle₂ : List Participant → List Participant)
        (ws : List Participant),
      (shuffle (eligibleOf ps)).Perm (eligibleOf ps) →
      (∀ p ∈ eligibleOf ps, p.tg_id ≠ 0) →
      performDraw ps shuffle = .assigned ws →
      (∃ w ∈ ws, w ∈ ps₂) →
      2 ≤ (eligibleOf ps₂).length →
      performDraw ps₂ shuffle₂ = .conflict) := by
  have part1 : ∀ (ps : List Participant)
      (shuffle : List Participant → List Participant),
      2 ≤ (eligibleOf ps).length →
      (∃ p ∈ eligibleOf ps, ∃ t : Int, p.recipient_tg_id = some t ∧ t ≠ 0) →
      performDraw ps shuffle = .conflict
        ∧ ∀ ws, performDraw ps shuffle ≠ .assigned ws := by
    intro ps shuffle h2 hex
    obtain ⟨p, hp, t, ht, htne⟩ := hex
    have hc : performDraw ps shuffle = .conflict :=
      performDraw_conflict_of ps shuffle h2
        ⟨p, hp, by rw [ht, pyTruthyInt]; simpa using htne⟩
    exact ⟨hc, fun ws hw => by rw [hc] at hw; exact DrawResult.noConfusion hw⟩
  refine ⟨part1, ?_⟩
  intro ps ps₂ shuffle shuffle₂ ws hperm htg hdraw hmem h2b
  obtain ⟨w, hwws, hwps₂⟩ := hmem
  have hws : ws = drawAssign (shuffle (eligibleOf ps)) := by
    revert hdraw
    show (if (eligibleOf ps).length < 2 then DrawResult.insufficient
      else if (eligibleOf ps).any (fun p => pyTruthyInt p.recipient_tg_id) then
        DrawResult.conflict
      else DrawResult.assigned (drawAssign (shuffle (eligibleOf ps))))
        = .assigned ws → ws = drawAssign (shuffle (eligibleOf ps))
    intro hdraw
    by_cases hlt : (eligibleOf ps).length < 2
    · rw [if_pos hlt] at hdraw
      exact absurd hdraw (by simp)
    · rw [if_neg hlt] at hdraw
      by_cases hany : (eligibleOf ps).any (fun p => pyTruthyInt p.recipient_tg_id)
      · rw [if_pos hany] at hdraw
        exact absurd hdraw (by simp)
      · rw [if_neg hany] at hdraw
        exact (DrawResult.assigned.inj hdraw).symm
  subst hws
  obtain ⟨i, hi, hqe⟩ := drawAssign_mem _ w hwws
  have hrecv : (shuffle (eligibleOf ps)).get
      ⟨(i + 1) % (shuffle (eligibleOf ps)).length, Nat.mod_lt _ (by omega)⟩
      ∈ eligibleOf ps := hperm.mem_iff.mp (List.get_mem _ _ _)
  have hsanta : (shuffle (eligibleOf ps)).get ⟨i, hi⟩ ∈ eligibleOf ps :=
    hperm.mem_iff.mp (List.get_mem _ _ hi)
  have hflt := List.of_mem_filter hsanta
  rw [Bool.and_eq_true] at hflt
  have hwel : w ∈ eligibleOf ps₂ := by
    apply List.mem_filter.mpr
    refine ⟨hwps₂, ?_⟩
    rw [hqe, Bool.and_eq_true, assignFromReceiver_active,
      assignFromReceiver_validated]
    exact hflt
  apply performDraw_conflict_of ps₂ shuffle₂ h2b
  refine ⟨w, hwel, ?_⟩
  rw [hqe, assignFromReceiver_recipient, pyTruthyInt]
  simpa using htg _ hrecv

/-- Claim C6 (amended), instance: a second draw over an already-assigned pair
returns `conflict`. -/
theorem C6_conflict_guard_witness :
    performDraw
        [⟨1, none, "A", "D", "P", true, true, none, none, some 2, some "B",
          some "I", false, none, none⟩,
         ⟨2, none, "B", "D", "P", true, true, none, none, some 1, some "A",
          some "I", false, none, none⟩] id = DrawResult.conflict :=
  (C6_conflict_guard.1 _ id (by decide)
    ⟨⟨1, none, "A", "D", "P", true, true, none, none, some 2, some "B",
      some "I", false, none, none⟩, by decide, 2, by decide, by decide⟩).1

/-!
Notification dispatcher lemmas.
-/

theorem notifyParticipants_spec (onf : Bool) (deliver : Participant → Bool)
    (ps : List Participant) : ∀ st : NotifyState,
    ps.foldl (notifyStep onf deliver) st = {
      sent := st.sent + (ps.filter fun p => isCandidate onf p && deliver p).length
      failed := st.failed
        + (ps.filter fun p => isCandidate onf p && !deliver p).length
      messaged := st.messaged ++ ps.filter (isCandidate onf)
      writes := st.writes ++ (ps.filter fun p =>
        isCandidate onf p && deliver p && !p.notified).map
          fun p => { p with notified := true } } := by
  induction ps with
  | nil => intro st; simp
  | cons p rest ih =>
    intro st
    rw [List.foldl_cons]
    rcases Bool.eq_false_or_eq_true onf with honf | honf <;> subst honf <;>
      by_cases ha : p.active <;>
      by_cases hv : p.validated <;>
      by_cases hri : pyTruthyInt p.recipient_tg_id = true <;>
      by_cases hrn : pyTruthyStr p.recipient_name = true <;>
      by_cases hno : p.notified <;> by_cases hd : deliver p = true <;>
      simp [notifyStep, isCandidate, ha, hv, hri, hrn, hno, hd, ih,
        List.filter_cons, List.append_assoc, Nat.add_assoc, Nat.add_comm,
        Nat.add_left_comm]

theorem notifyParticipants_messaged (onf : Bool) (deliver : Participant → Bool)
    (ps : List Participant) :
    (notifyParticipants onf deliver ps).messaged = ps.filter (isCandidate onf) := by
  rw [notifyParticipants, notifyParticipants_spec]
  rfl

/-!
Claim C7 — the notification candidate set.  The claim fails on the code for
the same reason as the draw guard of claim C6: the loop skip test
`if not p.recipient_tg_id or not p.recipient_name` (admin.py line 389) is a
Python TRUTHINESS test, so a participant whose stored recipient id parsed to
`0` (a non-null assignment, reachable from a `"0"` cell) — or whose recipient
name is empty or missing — is skipped even in reminder mode, although the
claim counts them as a candidate.
-/

/-- Claim C7 (counterexample): an active, validated participant carrying the
non-null recipient assignment `some 0` (with a recipient name set) is NOT
messaged in reminder mode — the loop's truthiness test skips them — refuting
that the candidate set is exactly the active-and-validated participants with
a non-null recipient assignment. -/
theorem C7_notify_candidates_counterexample :
    ((⟨1, none, "A", "D", "P", true, true, none, none, some 0, some "B",
        some "I", false, none, none⟩ : Participant).active
      && (⟨1, none, "A", "D", "P", true, true, none, none, some 0, some "B",
        some "I", false, none, none⟩ : Participant).validated
      && (⟨1, none, "A", "D", "P", true, true, none, none, some 0, some "B",
        some "I", false, none, none⟩ : Participant).recipient_tg_id.isSome)
      = true
    ∧ (notifyParticipants false (fun _ => true)
        [⟨1, none, "A", "D", "P", true, true, none, none, some 0, some "B",
          some "I", false, none, none⟩]).messaged = [] := by
  decide

/-- Claim C7 (amended): the participants to whom a message send is attempted
are exactly those with `active` and `validated` true and a TRUTHY recipient
assignment — a nonzero recipient id AND a non-empty recipient name (Python
truthiness: a stored id `0` or an empty/missing name is skipped even though
the assignment is non-null); first-notification mode additionally skips
every candidate whose `notified` flag is already true, while reminder mode
attempts a send to every candidate regardless of that flag. -/
theorem C7_notify_candidates_amended (ps : List Participant)
    (deliver : Participant → Bool) :
    (notifyParticipants true deliver ps).messaged
      = ps.filter (fun p => p.active && p.validated
          && pyTruthyInt p.recipient_tg_id && pyTruthyStr p.recipient_name
          && !p.notified)
    ∧ (notifyParticipants false deliver ps).messaged
      = ps.filter (fun p => p.active && p.validated
          && pyTruthyInt p.recipient_tg_id && pyTruthyStr p.recipient_name) := by
  constructor
  · rw [notifyParticipants_messaged]
    apply List.filter_congr
    intro p hp
    rw [isCandidate]
    cases p.notified <;> simp
  · rw [notifyParticipants_messaged]
    apply List.filter_congr
    intro p hp
    rw [isCandidate]
    cases p.notified <;> simp

/-!
Claim C2 — the `notified` flag under reminder deliveries.  The claim fails on
the code: the loop runs `if not p.notified: p.notified = True; upsert(p)`
regardless of the mode, so a successful REMINDER delivery to a participant
whose flag is still `false` flips it to `true`.
-/

/-- Claim C2 (counterexample): in reminder mode, a successful delivery to a
candidate with `notified = false` changes the flag to `true` (and issues the
corresponding row write), refuting that reminder deliveries never change
`notified`. -/
theorem C2_reminder_counterexample :
    (⟨1, none, "A", "D", "P", true, true, none, none, some 2, some "B",
        some "I", false, none, none⟩ : Participant).notified = false
    ∧ ((notifyAfter false (fun _ => true)
        [⟨1, none, "A", "D", "P", true, true, none, none, some 2, some "B",
          some "I", false, none, none⟩]).map Participant.notified) = [true]
    ∧ (notifyParticipants false (fun _ => true)
        [⟨1, none, "A", "D", "P", true, true, none, none, some 2, some "B",
          some "I", false, none, none⟩]).messaged
      = [⟨1, none, "A", "D", "P", true, true, none, none, some 2, some "B",
          some "I", false, none, none⟩] := by
  decide

/-- Claim C2 (amended): in reminder mode, the `notified` flag after the run
is the old flag OR-ed with "the participant is a candidate and the delivery
succeeded": a flag that is already `true` is never changed, and a reminder
delivery to a not-yet-notified candidate sets it to `true`. -/
theorem C2_reminder_notified (deliver : Participant → Bool)
    (ps : List Participant) :
    ∀ i, ∀ hi : i < ps.length, ∀ hi2 : i < (notifyAfter false deliver ps).length,
      ((notifyAfter false deliver ps).get ⟨i, hi2⟩).notified
        = ((ps.get ⟨i, hi⟩).notified
            || (isCandidate false (ps.get ⟨i, hi⟩) && deliver (ps.get ⟨i, hi⟩))) := by
  intro i hi hi2
  simp only [notifyAfter] at hi2 ⊢
  simp only [List.get_eq_getElem, List.getElem_map, notifyMutate]
  by_cases hcand : isCandidate false ps[i] = true <;>
    by_cases hd : deliver ps[i] = true <;>
    by_cases hno : ps[i].notified = true <;>
    simp [hcand, hd, hno]

/-- Claim C2 (amended), instance: an already-notified candidate keeps
`notified = true` after a successful reminder. -/
theorem C2_reminder_notified_witness :
    ((notifyAfter false (fun _ => true)
        [(⟨1, none, "A", "D", "P", true, true, none, none, some 2, some "B",
          some "I", true, none, none⟩ : Participant)]).get ⟨0, by decide⟩).notified
      = true :=
  (C2_reminder_notified (fun _ => true) _ 0 (by decide) (by decide)).trans
    (by decide)

/-!
Claim C3 — transport errors in `get_by_tg_id`.  The claim is right and the
code is wrong: `_find_row_index_by_tg_id` wraps `sheet.find` in
`except Exception: return None`, so a raised transport error (rate limit,
connectivity, auth — a `gspread` `APIError`) is converted into the same
`None` that means "no matching row", and `get_by_tg_id` returns not-found.
The spec (§7) requires transport errors to propagate distinctly and never be
silently swallowed, and the sibling `_load_participants_or_error` in
`admin.py` carefully surfaces exactly these exceptions from `list_all`.
-/

/-- Claim C3 (code bug, evaluated): a store whose `find` raises a transport
error makes `get_by_tg_id` return the not-found outcome `.ok none` — the
very same observable result as a store where no matching row exists. -/
theorem C3_transport_error_swallowed :
    getByTgId ⟨fun _ => .error .apiError, fun _ => []⟩ none 0 10 true 123
      = .ok none
    ∧ getByTgId ⟨fun _ => .ok none, fun _ => []⟩ none 0 10 true 123
      = .ok none := by
  decide

/-!
Claim C10 — cache clones carry no store position.
-/

/-- Claim C10: a `get_by_tg_id` cache hit returns a clone rebuilt from the
declared dataclass fields only, so its `row_index` is absent (`none` in the
embedding — the attribute access would raise `AttributeError`); a `list_all`
cache hit likewise returns only clones without `row_index`; a fresh store
read instead sets `row_index` to the found row. -/
theorem C10_cache_clone_row_index :
    (∀ (sheet : SheetModel) (e : CacheEntry) (now ttl : Nat) (tg : Int)
        (sp : StoredParticipant),
      0 < ttl → ¬(now > e.expires_at) →
      cacheDictLookup e.participants tg = some sp →
      getByTgId sheet (some e) now ttl true tg = .ok (some ⟨sp.p, none⟩))
    ∧ (∀ (sheet_values : List (List String)) (e : CacheEntry) (now ttl : Nat)
        (res : List StoredParticipant) (c : Option CacheEntry),
      0 < ttl → ¬(now > e.expires_at) →
      listAll sheet_values (some e) now ttl true = .ok (res, c) →
      ∀ sp ∈ res, sp.row_index = none)
    ∧ (∀ (sheet : SheetModel) (cache : Option CacheEntry) (now ttl : Nat)
        (tg : Int) (idx : Nat) (q : Participant),
      getCachedParticipant cache now tg = none →
      sheet.find tg = .ok (some idx) →
      Participant.from_row (sheet.row_values idx) = .ok q →
      getByTgId sheet cache now ttl true tg = .ok (some ⟨q, some idx⟩)) := by
  refine ⟨?_, ?_, ?_⟩
  · intro sheet e now ttl tg sp httl hexp hdict
    have hc : getCachedParticipant (some e) now tg = some ⟨sp.p, none⟩ := by
      simp only [getCachedParticipant, if_neg hexp, hdict]
      rfl
    have hcond : (true && decide (0 < ttl)) = true := by simp [httl]
    simp only [getByTgId, hcond, if_true, hc]
  · intro sheet_values e now ttl res c httl hexp hlist
    have hc : getCachedList (some e) now
        = some (e.participants.map cloneParticipant) := by
      simp only [getCachedList, if_neg hexp]
    have hcond : (true && decide (0 < ttl)) = true := by simp [httl]
    rw [listAll] at hlist
    simp only [hcond, if_true, hc] at hlist
    have hpair := Except.ok.inj hlist
    have hres : e.participants.map cloneParticipant = res :=
      congrArg Prod.fst hpair
    intro sp hsp
    rw [← hres] at hsp
    obtain ⟨x, _, rfl⟩ := List.mem_map.mp hsp
    rfl
  · intro sheet cache now ttl tg idx q hcache hfind hfrom
    have hmiss : (if (true && decide (0 < ttl)) = true then
        getCachedParticipant cache now tg else none) = none := by
      by_cases h : (true && decide (0 < ttl)) = true
      · rw [if_pos h]; exact hcache
      · rw [if_neg h]
    simp only [getByTgId, hmiss, findRowIndexByTgId, hfind, hfrom]
    rfl

/-- Claim C10, instance: a cache hit drops `row_index` even when the cached
entry carried one; a fresh read of row 2 sets it. -/
theorem C10_cache_clone_row_index_witness :
    getByTgId ⟨fun _ => .ok none, fun _ => []⟩
        (some ⟨100, [⟨⟨1, none, "A", "D", "P", true, true, none, none, none,
          none, none, false, none, none⟩, some 5⟩]⟩) 0 10 true 1
      = .ok (some ⟨⟨1, none, "A", "D", "P", true, true, none, none, none,
          none, none, false, none, none⟩, none⟩)
    ∧ (∀ sp ∈ [(⟨⟨1, none, "A", "D", "P", true, true, none, none, none,
          none, none, false, none, none⟩, none⟩ : StoredParticipant)],
        sp.row_index = none)
    ∧ getByTgId ⟨fun _ => .ok (some 2), fun _ => ["", "7"]⟩ none 0 10 true 7
      = .ok (some ⟨⟨7, none, "", "", "", false, false, none, none, none,
          none, none, false, none, none⟩, some 2⟩) :=
  ⟨C10_cache_clone_row_index.1 ⟨fun _ => .ok none, fun _ => []⟩
      ⟨100, [⟨⟨1, none, "A", "D", "P", true, true, none, none, none,
        none, none, false, none, none⟩, some 5⟩]⟩ 0 10 1
      ⟨⟨1, none, "A", "D", "P", true, true, none, none, none,
        none, none, false, none, none⟩, some 5⟩
      (by decide) (by decide) (by decide),
   C10_cache_clone_row_index.2.1 [] ⟨100, [⟨⟨1, none, "A", "D", "P", true,
        true, none, none, none, none, none, false, none, none⟩, some 5⟩]⟩
      0 10 [⟨⟨1, none, "A", "D", "P", true, true, none, none, none,
        none, none, false, none, none⟩, none⟩] (some ⟨100, [⟨⟨1, none, "A",
        "D", "P", true, true, none, none, none, none, none, false, none,
        none⟩, some 5⟩]⟩)
      (by decide) (by decide) (by decide),
   C10_cache_clone_row_index.2.2 ⟨fun _ => .ok (some 2), fun _ => ["", "7"]⟩
      none 0 10 7 2
      ⟨7, none, "", "", "", false, false, none, none, none, none, none,
        false, none, none⟩
      (by decide) (by decide) (by decide)⟩

/-!
Claim C8 — cache invalidation in `bulk_upsert_participants`.  The claim fails
on the code: `_invalidate_cache()` is the last statement of the method with
no try/finally, so when a `batch_update` raises partway (or the `row_index`
precondition raises), the method exits by exception WITHOUT invalidating the
cache.  The missing-`row_index` half of the claim is right.
-/

theorem bulkRunChunks_all_ok (batchOk : List (Nat × List String) → Bool)
    (chunks : List (List (Nat × List String)))
    (h : ∀ c ∈ chunks, batchOk c = true) :
    bulkRunChunks batchOk chunks
      = (chunks.map BulkEvent.batchWrite ++ [BulkEvent.invalidateCache],
         .ok ()) := by
  induction chunks with
  | nil => rfl
  | cons c rest ih =>
    rw [bulkRunChunks, if_pos (h c (by simp)), ih (fun x hx => h x (by simp [hx]))]
    rfl

theorem bulkRunChunks_error_no_invalidate
    (batchOk : List (Nat × List String) → Bool)
    (chunks : List (List (Nat × List String))) (e : PyErr)
    (herr : (bulkRunChunks batchOk chunks).2 = .error e) :
    (bulkRunChunks batchOk chunks).1.count BulkEvent.invalidateCache = 0 := by
  induction chunks with
  | nil => exact absurd herr (by simp [bulkRunChunks])
  | cons c rest ih =>
    rw [bulkRunChunks] at herr ⊢
    by_cases hok : batchOk c = true
    · rw [if_pos hok] at herr ⊢
      simp only at herr ⊢
      rw [List.count_cons]
      rw [ih herr]
      simp
    · rw [if_neg hok] at herr ⊢
      simp

theorem bulkPrepare_error_of_missing (now : String)
    (ps : List StoredParticipant) (sp : StoredParticipant) (hmem : sp ∈ ps)
    (hidx : pyTruthyNat sp.row_index = false) :
    bulkPrepare now ps = .error .valueError := by
  induction ps with
  | nil => exact absurd hmem (List.not_mem_nil sp)
  | cons q rest ih =>
    rw [bulkPrepare]
    by_cases hq : pyTruthyNat q.row_index = false
    · rw [if_pos hq]
    · rw [if_neg hq]
      rcases List.mem_cons.mp hmem with rfl | hmem2
      · exact absurd hidx hq
      · rw [ih hmem2]
        rfl

theorem bulkPrepare_ok_of_truthy (now : String) (ps : List StoredParticipant)
    (h : ∀ sp ∈ ps, pyTruthyNat sp.row_index = true) :
    ∃ prep, bulkPrepare now ps = .ok prep := by
  induction ps with
  | nil => exact ⟨[], rfl⟩
  | cons q rest ih =>
    obtain ⟨tl, htl⟩ := ih (fun sp hsp => h sp (by simp [hsp]))
    refine ⟨(q.row_index.getD 0, ({ q.p with updated_at := some now }).to_row) :: tl, ?_⟩
    rw [bulkPrepare, if_neg (by rw [h q (by simp)]; simp), htl]
    rfl

/-- Claim C8 (counterexample): with chunk size 1, two positioned
participants, and a `batch_update` oracle that fails on the second chunk,
`bulk_upsert_participants` raises after the first write and the event trace
contains NO cache invalidation — refuting that the invalidation also happens
when the operation fails partway. -/
theorem C8_bulk_invalidate_counterexample :
    ((bulkUpsertParticipants 1 "T"
        (fun c => (c.head?.map Prod.fst) == some 2)
        [⟨⟨1, none, "A", "D", "P", true, true, none, none, none, none, none,
          false, none, none⟩, some 2⟩,
         ⟨⟨2, none, "B", "D", "P", true, true, none, none, none, none, none,
          false, none, none⟩, some 3⟩]).1.count BulkEvent.invalidateCache = 0)
    ∧ (bulkUpsertParticipants 1 "T"
        (fun c => (c.head?.map Prod.fst) == some 2)
        [⟨⟨1, none, "A", "D", "P", true, true, none, none, none, none, none,
          false, none, none⟩, some 2⟩,
         ⟨⟨2, none, "B", "D", "P", true, true, none, none, none, none, none,
          false, none, none⟩, some 3⟩]).2 = .error .apiError := by
  decide

theorem bulkUpsert_eq_run (chunkSize : Nat) (now : String)
    (batchOk : List (Nat × List String) → Bool) (ps : List StoredParticipant)
    (prep : List (Nat × List String)) (hne : ps ≠ [])
    (hprep : bulkPrepare now ps = .ok prep) :
    bulkUpsertParticipants chunkSize now batchOk ps
      = bulkRunChunks batchOk (chunked prep chunkSize) := by
  rw [bulkUpsertParticipants, if_neg hne, hprep]

theorem bulkUpsert_eq_prepErr (chunkSize : Nat) (now : String)
    (batchOk : List (Nat × List String) → Bool) (ps : List StoredParticipant)
    (e : PyErr) (hne : ps ≠ []) (hprep : bulkPrepare now ps = .error e) :
    bulkUpsertParticipants chunkSize now batchOk ps = ([], .error e) := by
  rw [bulkUpsertParticipants, if_neg hne, hprep]

/-- Claim C8 (amended): `bulk_upsert_participants` on a non-empty input with
known store positions invalidates the cache exactly once, as the LAST event
after all batch writes succeed; when the operation fails (a failing batch
write, or the missing-`row_index` `ValueError`, which is raised before any
write) the cache is NOT invalidated. -/
theorem C8_bulk_invalidate :
    (∀ (chunkSize : Nat) (now : String)
        (batchOk : List (Nat × List String) → Bool)
        (ps : List StoredParticipant),
      ps ≠ [] → (∀ sp ∈ ps, pyTruthyNat sp.row_index = true) →
      (∀ c, batchOk c = true) →
      (bulkUpsertParticipants chunkSize now batchOk ps).1.count
          BulkEvent.invalidateCache = 1
        ∧ (bulkUpsertParticipants chunkSize now batchOk ps).1.getLast?
          = some BulkEvent.invalidateCache
        ∧ (bulkUpsertParticipants chunkSize now batchOk ps).2 = .ok ())
    ∧ (∀ (chunkSize : Nat) (now : String)
        (batchOk : List (Nat × List String) → Bool)
        (ps : List StoredParticipant) (e : PyErr),
      (bulkUpsertParticipants chunkSize now batchOk ps).2 = .error e →
      (bulkUpsertParticipants chunkSize now batchOk ps).1.count
        BulkEvent.invalidateCache = 0)
    ∧ (∀ (chunkSize : Nat) (now : String)
        (batchOk : List (Nat × List String) → Bool)
        (ps : List StoredParticipant) (sp : StoredParticipant),
      sp ∈ ps → pyTruthyNat sp.row_index = false →
      (bulkUpsertParticipants chunkSize now batchOk ps).2 = .error .valueError
        ∧ (bulkUpsertParticipants chunkSize now batchOk ps).1 = []) := by
  refine ⟨?_, ?_, ?_⟩
  · intro chunkSize now batchOk ps hne htruthy hall
    obtain ⟨prep, hprep⟩ := bulkPrepare_ok_of_truthy now ps htruthy
    rw [bulkUpsert_eq_run chunkSize now batchOk ps prep hne hprep,
      bulkRunChunks_all_ok batchOk _ (fun c _ => hall c)]
    refine ⟨?_, ?_, rfl⟩
    · rw [List.count_append]
      have hzero : (List.map BulkEvent.batchWrite
          (chunked prep chunkSize)).count BulkEvent.invalidateCache = 0 := by
        rw [List.count_eq_zero]
        intro hc
        obtain ⟨x, _, hx⟩ := List.mem_map.mp hc
        exact BulkEvent.noConfusion hx
      rw [hzero]
      rfl
    · exact List.getLast?_concat _
  · intro chunkSize now batchOk ps e herr
    by_cases hne : ps = []
    · rw [bulkUpsertParticipants, if_pos hne] at herr
      exact absurd herr (by simp)
    · cases hprep : bulkPrepare now ps with
      | error e2 =>
        rw [bulkUpsert_eq_prepErr chunkSize now batchOk ps e2 hne hprep]
        rfl
      | ok prep =>
        rw [bulkUpsert_eq_run chunkSize now batchOk ps prep hne hprep] at herr ⊢
        exact bulkRunChunks_error_no_invalidate batchOk _ e herr
  · intro chunkSize now batchOk ps sp hmem hidx
    have hne : ps ≠ [] := by
      intro hc
      rw [hc] at hmem
      exact List.not_mem_nil sp hmem
    rw [bulkUpsert_eq_prepErr chunkSize now batchOk ps .valueError hne
      (bulkPrepare_error_of_missing now ps sp hmem hidx)]
    exact ⟨rfl, rfl⟩

/-- Claim C8 (amended), instance: a fully successful two-row bulk upsert
invalidates exactly once, at the end. -/
theorem C8_bulk_invalidate_witness :
    (bulkUpsertParticipants 1 "T" (fun _ => true)
        [⟨⟨1, none, "A", "D", "P", true, true, none, none, none, none, none,
          false, none, none⟩, some 2⟩,
         ⟨⟨2, none, "B", "D", "P", true, true, none, none, none, none, none,
          false, none, none⟩, some 3⟩]).1.count BulkEvent.invalidateCache = 1
      ∧ (bulkUpsertParticipants 1 "T" (fun _ => true)
        [⟨⟨1, none, "A", "D", "P", true, true, none, none, none, none, none,
          false, none, none⟩, some 2⟩,
         ⟨⟨2, none, "B", "D", "P", true, true, none, none, none, none, none,
          false, none, none⟩, some 3⟩]).1.getLast?
        = some BulkEvent.invalidateCache
      ∧ (bulkUpsertParticipants 1 "T" (fun _ => true)
        [⟨⟨1, none, "A", "D", "P", true, true, none, none, none, none, none,
          false, none, none⟩, some 2⟩,
         ⟨⟨2, none, "B", "D", "P", true, true, none, none, none, none, none,
          false, none, none⟩, some 3⟩]).2 = .ok () :=
  C8_bulk_invalidate.1 1 "T" (fun _ => true) _ (by decide)
    (by decide) (fun c => rfl)
